import Mathlib

/-!
Verification of the git-wt workspace-provisioning CLI.

The definitions below are a shallow embedding of the repository's source:
  * the CLI entry point (`resolveRepoName`, `resolveInputs`,
    `ensureBareRepository`, `createWorktree`, `run`),
  * the full-screen TUI form (`src/tui.ts`),
  * and, where the multi-branch entry point is not among the source files,
    definitions modelled from the specification (marked in their doc
    comments).

External effects (filesystem, git subprocesses, the terminal screen) are
modelled by explicit state passing: a list of existing directory paths, an
append-only trace of issued effects, and an oracle giving the outcome of
each external git invocation.  Presentation concerns (spinner text, colors,
banner, progress-line streaming) are omitted, as the spec places them out
of scope.
-/

/-! ### String primitives

JavaScript string operations used by the source, modelled over `List Char`:
`String.prototype.trim`, `String.prototype.toLowerCase` (ASCII),
`String.prototype.includes`. -/

/-- Does `hay` start with `needle`? (character-list version) -/
def charsStartWith : List Char → List Char → Bool
  | [], _ => true
  | _ :: _, [] => false
  | a :: as, b :: bs => a == b && charsStartWith as bs

/-- Does `needle` occur as a contiguous run inside `hay`? -/
def charsHaveSub (needle : List Char) : List Char → Bool
  | [] => charsStartWith needle []
  | b :: bs => charsStartWith needle (b :: bs) || charsHaveSub needle bs

/-- Model of JavaScript `haystack.includes(needle)`. -/
def strHasSub (haystack needle : String) : Bool :=
  charsHaveSub needle.data haystack.data

/-- Does the string `s` start with `pat`? -/
def strStartsWith (s pat : String) : Bool :=
  charsStartWith pat.data s.data

/-- Model of JavaScript `s.trim()`: strip leading and trailing whitespace. -/
def jsTrim (s : String) : String :=
  String.mk (((s.data.dropWhile Char.isWhitespace).reverse.dropWhile
      Char.isWhitespace).reverse)

/-- Model of JavaScript `s.toLowerCase()` on ASCII input. -/
def lowerStr (s : String) : String :=
  String.mk (s.data.map Char.toLower)

/-- Boolean string membership in a list (JavaScript `Array.includes`). -/
def strMem (l : List String) (x : String) : Bool :=
  l.any (fun y => y == x)

/-! ### Missing-branch error detection (source: `isMissingBranchError`) -/

/-- The two literal phrases recognised as a branch-not-found error. -/
def MISSING_BRANCH_PATTERNS : List String :=
  ["invalid reference", "not a valid object name"]

/-- Source `isMissingBranchError`: lowercase the message and check whether
any of the (already lowercase) patterns occurs as a substring. -/
def isMissingBranchError (message : String) : Bool :=
  MISSING_BRANCH_PATTERNS.any (fun p => strHasSub (lowerStr message) p)

/-! ### Repository-name resolution (source: `resolveRepoName`)

The source matches the URL against the regular expression
`/\/([^\/]+?)(\.git)?$/` and takes capture group 1.  Because the capture
cannot contain a slash and the match is anchored at the end, a match, when
it exists, starts at the last `/` of the URL; the lazy quantifier makes the
capture the last segment minus an optional `.git` suffix, except that the
segment `.git` itself is returned whole (the capture must be non-empty). -/

/-- The (possibly empty) run of characters after the last `/`, or `none`
when the list has no `/` at all. -/
def lastSegCore : List Char → Option (List Char)
  | [] => none
  | c :: cs =>
    match lastSegCore cs with
    | some r => some r
    | none => if c = '/' then some cs else none

/-- Does the segment end in `.git` with at least one character before it? -/
def endsWithDotGit (seg : List Char) : Bool :=
  decide (4 < seg.length ∧ seg.drop (seg.length - 4) = ['.', 'g', 'i', 't'])

/-- Strip a trailing `.git` when `endsWithDotGit` holds, mirroring the lazy
capture of the source regex. -/
def stripDotGit (seg : List Char) : List Char :=
  if 4 < seg.length ∧ seg.drop (seg.length - 4) = ['.', 'g', 'i', 't'] then
    seg.take (seg.length - 4)
  else seg

/-- The error message thrown when no repository name can be extracted. -/
def invalidUrlMessage : String :=
  "Invalid Git URL. Could not extract repository name."

/-- Source `resolveRepoName`: extract the repository name from a git URL or
fail with `invalidUrlMessage`. -/
def resolveRepoName (url : String) : Except String String :=
  match lastSegCore url.data with
  | none => Except.error invalidUrlMessage
  | some seg =>
    if seg.isEmpty then Except.error invalidUrlMessage
    else Except.ok (String.mk (stripDotGit seg))

/-! ### Input resolution (source: `resolveInputs`) -/

/-- The usage error thrown by the single-branch CLI on missing arguments. -/
def usageMessage : String := "Usage: git-wt <repo-url> <branch-name> [options]"

/-- The directory option after trimming, defaulting to the current working
directory when blank (source: `dirArg.trim() || process.cwd()`). -/
def resolvedDir (dirArg cwd : String) : String :=
  if (jsTrim dirArg).data.isEmpty then cwd else jsTrim dirArg

/-- Source `resolveInputs`: trim the optional url and branch arguments,
default a blank dir option to the current working directory, and fail when
url or branch is absent or trims to empty. -/
def resolveInputs (urlArg branchArg : Option String) (dirArg cwd : String) :
    Except String (String × String × String) :=
  let dir := resolvedDir dirArg cwd
  match urlArg.map jsTrim, branchArg.map jsTrim with
  | some u, some b =>
    if u.data.isEmpty || b.data.isEmpty then Except.error usageMessage
    else Except.ok (u, b, dir)
  | _, _ => Except.error usageMessage

/-! ### Path planning (source: the path computations in `run`)

`path.join` is modelled as separator concatenation; the source only joins
plain segment names onto an already-resolved base directory. -/

/-- Model of `path.join(a, b)`. -/
def joinPath (a b : String) : String :=
  String.mk (a.data ++ '/' :: b.data)

/-- The three derived paths of the planner: `repoDir`, `bareRepoPath`,
`worktreePath`, exactly as computed in `run`. -/
def planPaths (baseDir repoName branch : String) : String × String × String :=
  (joinPath baseDir repoName,
   joinPath (joinPath baseDir repoName) ".bare",
   joinPath (joinPath baseDir repoName) branch)

/-! ### External-effect model

Each filesystem/git interaction of the source is recorded as an `Effect`.
The `remove` constructor exists so that "never deletes anything" is a
non-vacuous statement about the traces the embedding can produce. -/

/-- One external side effect issued by the CLI. -/
inductive Effect where
  | ensureDir (p : String)
  | gitFetch (repo : String)
  | gitClone (url dest : String)
  | gitWorktreeAdd (repo wt branch : String)
  | gitWorktreeAddB (repo branch wt : String)
  | remove (p : String)
deriving DecidableEq

/-- Outcomes of the external git invocations: `none` is success, `some e`
is a thrown error carrying message `e`.  The oracle is a pure function, so
a given environment answers every command deterministically. -/
structure GitOracle where
  fetchErr : String → Option String
  cloneErr : String → String → Option String
  addErr : String → String → String → Option String
  addBErr : String → String → String → Option String

/-- The mutable world: the set of existing directory paths and the ordered
trace of effects issued so far. -/
structure RunState where
  fs : List String
  trace : List Effect
deriving DecidableEq

/-- Append one effect to the trace. -/
def emit (s : RunState) (e : Effect) : RunState :=
  { s with trace := s.trace ++ [e] }

/-- Does path `p` exist in the modelled filesystem? -/
def pathExistsIn (fs : List String) (p : String) : Bool :=
  strMem fs p

/-- Idempotent directory creation on the modelled filesystem. -/
def insertPath (fs : List String) (p : String) : List String :=
  if pathExistsIn fs p then fs else p :: fs

/-- Record a directory as existing. -/
def mkdirFs (s : RunState) (p : String) : RunState :=
  { s with fs := insertPath s.fs p }

/-! ### Repository provisioner (source: `ensureBareRepository`)

If the bare repository exists, fetch `origin` inside it; otherwise run a
bare clone of the url into it.  A successful clone creates the destination
directory; a failed clone leaves the modelled filesystem unchanged (partial
artifacts are not tracked as a usable directory).  The spinner text and
stderr progress streaming of the source are presentation and not
modelled. -/

/-- Source `ensureBareRepository`. -/
def ensureBareRepository (g : GitOracle) (url bareRepoPath : String)
    (s : RunState) : RunState × Option String :=
  if pathExistsIn s.fs bareRepoPath then
    let s1 := emit s (Effect.gitFetch bareRepoPath)
    match g.fetchErr bareRepoPath with
    | none => (s1, none)
    | some e => (s1, some e)
  else
    let s1 := emit s (Effect.gitClone url bareRepoPath)
    match g.cloneErr url bareRepoPath with
    | none => (mkdirFs s1 bareRepoPath, none)
    | some e => (s1, some e)

/-! ### Worktree creator (source: `createWorktree`) -/

/-- Source `createWorktree`: fail if the worktree path already exists
(before any git command); otherwise attempt `worktree add`, retrying once
with `worktree add -b` exactly when the first error is a missing-branch
error; an error of the retry, or any non-missing-branch error of the first
attempt, is rethrown. -/
def createWorktree (g : GitOracle) (bareRepoPath worktreePath branch : String)
    (s : RunState) : RunState × Option String :=
  if pathExistsIn s.fs worktreePath then
    (s, some ("Worktree path " ++ worktreePath ++ " already exists."))
  else
    let s1 := emit s (Effect.gitWorktreeAdd bareRepoPath worktreePath branch)
    match g.addErr bareRepoPath worktreePath branch with
    | none => (mkdirFs s1 worktreePath, none)
    | some e =>
      if isMissingBranchError e then
        let s2 := emit s1 (Effect.gitWorktreeAddB bareRepoPath branch worktreePath)
        match g.addBErr bareRepoPath branch worktreePath with
        | none => (mkdirFs s2 worktreePath, none)
        | some e2 => (s2, some e2)
      else (s1, some e)

/-! ### The single-branch CLI action (source: `run`) -/

/-- The world state right after `fs.ensureDir(repoDir)`: the repo directory
recorded as existing and the effect logged. -/
def initialState (fs0 : List String) (repoDir : String) : RunState :=
  mkdirFs (emit { fs := fs0, trace := [] } (Effect.ensureDir repoDir)) repoDir

/-- Result of one CLI invocation: the process exit code set by the action
(`process.exitCode`), the failure message printed by the catch handler, and
the final world state.  `path.resolve(dir)` is modelled as the identity on
the already-absolute directories considered here. -/
structure CliResult where
  exitCode : Nat
  errMsg : Option String
  state : RunState
deriving DecidableEq

/-- Source `run` action: resolve inputs, derive the layout, ensure the
repo directory, provision the bare repository once, then create the
worktree; any thrown error is caught, reported and sets exit code 1. -/
def runCli (g : GitOracle) (cwd : String) (fs0 : List String)
    (urlArg branchArg : Option String) (dirOpt : String) : CliResult :=
  match resolveInputs urlArg branchArg dirOpt cwd with
  | Except.error e =>
    { exitCode := 1, errMsg := some e, state := { fs := fs0, trace := [] } }
  | Except.ok (url, branch, dir) =>
    match resolveRepoName url with
    | Except.error e =>
      { exitCode := 1, errMsg := some e, state := { fs := fs0, trace := [] } }
    | Except.ok repoName =>
      let repoDir := joinPath dir repoName
      let bareRepoPath := joinPath repoDir ".bare"
      let worktreePath := joinPath repoDir branch
      let s0 := initialState fs0 repoDir
      match ensureBareRepository g url bareRepoPath s0 with
      | (s1, some e) => { exitCode := 1, errMsg := some e, state := s1 }
      | (s1, none) =>
        match createWorktree g bareRepoPath worktreePath branch s1 with
        | (s2, some e) => { exitCode := 1, errMsg := some e, state := s2 }
        | (s2, none) => { exitCode := 0, errMsg := none, state := s2 }

/-! ### Branch list parsing and the multi-branch entry point

The repository's final CLI entry point (branch-list parsing, non-interactive
argument checking, per-branch aggregation) is not among the source files;
only its tests and README exercise it.  The definitions in this section are
therefore modelled from the spec, as their doc comments state. -/

/-- Is this character a branch-token separator (comma or whitespace)? -/
def isSepChar (c : Char) : Bool :=
  c == ',' || c.isWhitespace

/-- Split a character list at separator characters (empty pieces kept; they
are discarded by the parser afterwards). -/
def splitSeps : List Char → List (List Char)
  | [] => [[]]
  | c :: cs =>
    if isSepChar c then [] :: splitSeps cs
    else
      match splitSeps cs with
      | [] => [[c]]
      | h :: t => (c :: h) :: t

/-- Split one raw token on commas and whitespace. -/
def splitToken (s : String) : List String :=
  (splitSeps s.data).map String.mk

/-- Keep the first occurrence of each string, dropping later duplicates. -/
def dedupAux (seen : List String) : List String → List String
  | [] => []
  | x :: xs =>
    if strMem seen x then dedupAux seen xs
    else x :: dedupAux (x :: seen) xs

/-- Deduplicate while preserving first-seen order. -/
def dedupKeepFirst (l : List String) : List String :=
  dedupAux [] l

/-- Modelled from the spec: the Branch List Parser.  "Split each token on
commas and whitespace, trim each resulting piece, discard empties, then
deduplicate while preserving first-seen order."  The CLI entry point
implementing this is not among the source files; its behaviour is pinned by
the repository's tests. -/
def parseBranches (tokens : List String) : List String :=
  dedupKeepFirst (((tokens.flatMap splitToken).map jsTrim).filter
    (fun s => !s.data.isEmpty))

/-- Per-branch aggregate entry: branch name, its worktree path, and the
failure message if creation failed. -/
structure BranchOutcome where
  branch : String
  worktreePath : String
  err : Option String
deriving DecidableEq

/-- Modelled from the spec: the per-branch loop of the Worktree Creator.
Branches are processed sequentially; a failure of one branch is recorded in
its outcome and does not stop the remaining branches. -/
def provisionBranches (g : GitOracle) (bareRepoPath repoDir : String) :
    List String → RunState → RunState × List BranchOutcome
  | [], s => (s, [])
  | b :: bs, s =>
    let wt := joinPath repoDir b
    let r := createWorktree g bareRepoPath wt b s
    let rest := provisionBranches g bareRepoPath repoDir bs r.1
    (rest.1, { branch := b, worktreePath := wt, err := r.2 } :: rest.2)

/-- Result of one multi-branch CLI invocation.  `prompted` records that the
interactive prompt collaborator was invoked (its interaction itself is out
of this model). -/
structure MultiResult where
  exitCode : Nat
  errMsg : Option String
  prompted : Bool
  outcomes : List BranchOutcome
  state : RunState
deriving DecidableEq

/-- Modelled from the spec: the multi-branch CLI control flow — Input
Resolver, Branch List Parser, Workspace Path Planner, Repository
Provisioner (once), Worktree Creator (once per branch), aggregated exit
status.  When url or branches are missing it fails immediately in
non-interactive mode with the documented message, and in interactive mode
it hands over to the prompt collaborator (recorded by `prompted`). -/
def runMulti (g : GitOracle) (cwd : String) (fs0 : List String)
    (urlArg : Option String) (branchTokens : List String)
    (interactive : Bool) (dirOpt : String) : MultiResult :=
  let url := jsTrim (urlArg.getD "")
  let branches := parseBranches branchTokens
  let dir := resolvedDir dirOpt cwd
  if url.data.isEmpty || branches.isEmpty then
    if interactive then
      { exitCode := 0, errMsg := none, prompted := true, outcomes := [],
        state := { fs := fs0, trace := [] } }
    else
      { exitCode := 1,
        errMsg := some "Missing required arguments in non-interactive mode",
        prompted := false, outcomes := [],
        state := { fs := fs0, trace := [] } }
  else
    match resolveRepoName url with
    | Except.error e =>
      { exitCode := 1, errMsg := some e, prompted := false, outcomes := [],
        state := { fs := fs0, trace := [] } }
    | Except.ok repoName =>
      let repoDir := joinPath dir repoName
      let bareRepoPath := joinPath repoDir ".bare"
      let s0 := initialState fs0 repoDir
      match ensureBareRepository g url bareRepoPath s0 with
      | (s1, some e) =>
        { exitCode := 1, errMsg := some e, prompted := false, outcomes := [],
          state := s1 }
      | (s1, none) =>
        let r := provisionBranches g bareRepoPath repoDir branches s1
        { exitCode := if r.2.any (fun o => o.err.isSome) then 1 else 0,
          errMsg := none, prompted := false, outcomes := r.2, state := r.1 }

/-! ### The full-screen TUI form (source: `src/tui.ts`)

`collectInputsWithTui` builds a blessed screen and returns a promise that
is settled by `submit`/`cancel`.  The model is a state machine: one state
per moment of the form's life, one step per delivered event.  Promise
delivery and screen operations are recorded in an ordered `actions` list,
so "the screen is destroyed before the rejection is delivered" is a
statement about the order of that list.  Widget layout and rendering are
presentation and not modelled. -/

/-- How the promise of `collectInputsWithTui` was settled. -/
inductive PromiseResult where
  | resolvedInputs (url branch dir : String)
  | rejected (msg : String)
deriving DecidableEq

/-- Observable actions of the TUI, in the order they happen. -/
inductive TuiAction where
  | destroyScreen
  | deliverResolve (url branch dir : String)
  | deliverReject (msg : String)
  | renderError (msg : String)
  | focusField (i : Nat)
deriving DecidableEq

/-- State of the TUI form: current textbox values, focus index over the
five focusables, the `settled` flag, the message-line error text, the
settled promise value (if any), and the ordered action log. -/
structure TuiState where
  urlVal : String
  branchVal : String
  dirVal : String
  focusIndex : Nat
  settled : Bool
  errText : Option String
  outcome : Option PromiseResult
  actions : List TuiAction
deriving DecidableEq

/-- The action that delivers a promise settlement. -/
def actionOf : PromiseResult → TuiAction
  | PromiseResult.resolvedInputs u b d => TuiAction.deliverResolve u b d
  | PromiseResult.rejected m => TuiAction.deliverReject m

/-- Source `settle`: a no-op when already settled; otherwise set the flag,
destroy the screen, then run the handler (deliver the settlement). -/
def settle (r : PromiseResult) (s : TuiState) : TuiState :=
  if s.settled then s
  else
    { s with settled := true, outcome := some r,
             actions := s.actions ++ [TuiAction.destroyScreen, actionOf r] }

/-- Source `focusAt`: normalize the index modulo the five focusables and
move focus there.  The argument is an integer because `focusAt(focusIndex
- 1)` can be called with `-1`. -/
def focusAt (i : Int) (s : TuiState) : TuiState :=
  let normalized := ((i + 5) % 5).toNat
  { s with focusIndex := normalized,
           actions := s.actions ++ [TuiAction.focusField normalized] }

/-- Source `setError`: show a message on the message line. -/
def setError (m : String) (s : TuiState) : TuiState :=
  { s with errText := some m, actions := s.actions ++ [TuiAction.renderError m] }

/-- Source `cancel`. -/
def cancel (s : TuiState) : TuiState :=
  settle (PromiseResult.rejected "Cancelled by user.") s

/-- Source `submit`: trim the three field values; on an empty field show
the error and refocus that field without settling; otherwise resolve. -/
def submit (s : TuiState) : TuiState :=
  if (jsTrim s.urlVal).data.isEmpty then
    focusAt 0 (setError "Repository URL is required." s)
  else if (jsTrim s.branchVal).data.isEmpty then
    focusAt 1 (setError "Branch is required." s)
  else if (jsTrim s.dirVal).data.isEmpty then
    focusAt 2 (setError "Base directory is required." s)
  else settle (PromiseResult.resolvedInputs (jsTrim s.urlVal)
    (jsTrim s.branchVal) (jsTrim s.dirVal)) s

/-- The events the TUI wires up (source lines: `screen.key`, the per-input
`enter` keys, the button `press` handlers, `form.on submit`, plus typing
into a textbox, modelled as replacing its value). -/
inductive TuiEvent where
  | keyEscape
  | keyQ
  | keyCtrlC
  | pressCancel
  | keyCtrlS
  | pressSubmit
  | formSubmit
  | dirEnter
  | keyTab
  | keyShiftTab
  | urlEnter
  | branchEnter
  | setUrl (v : String)
  | setBranch (v : String)
  | setDir (v : String)
deriving DecidableEq

/-- One step of the TUI: dispatch an event to its source handler. -/
def tuiStep (e : TuiEvent) (s : TuiState) : TuiState :=
  match e with
  | TuiEvent.keyEscape => cancel s
  | TuiEvent.keyQ => cancel s
  | TuiEvent.keyCtrlC => cancel s
  | TuiEvent.pressCancel => cancel s
  | TuiEvent.keyCtrlS => submit s
  | TuiEvent.pressSubmit => submit s
  | TuiEvent.formSubmit => submit s
  | TuiEvent.dirEnter => submit s
  | TuiEvent.keyTab => focusAt ((s.focusIndex : Int) + 1) s
  | TuiEvent.keyShiftTab => focusAt ((s.focusIndex : Int) - 1) s
  | TuiEvent.urlEnter => focusAt 1 s
  | TuiEvent.branchEnter => focusAt 2 s
  | TuiEvent.setUrl v => { s with urlVal := v }
  | TuiEvent.setBranch v => { s with branchVal := v }
  | TuiEvent.setDir v => { s with dirVal := v }

/-- The state right after `collectInputsWithTui` wires the form: prefilled
trimmed initial values, focus on the url field, unsettled. -/
def tuiInit (initialUrl initialBranch initialDir : Option String)
    (cwd : String) : TuiState :=
  { urlVal := jsTrim (initialUrl.getD "")
    branchVal := jsTrim (initialBranch.getD "")
    dirVal := jsTrim ((initialDir.getD cwd))
    focusIndex := 0
    settled := false
    errText := none
    outcome := none
    actions := [TuiAction.focusField 0] }

/-! ### Concrete oracles for witnesses -/

/-- An environment in which every git invocation succeeds. -/
def happyGit : GitOracle :=
  { fetchErr := fun _ => none
    cloneErr := fun _ _ => none
    addErr := fun _ _ _ => none
    addBErr := fun _ _ _ => none }

/-- An environment in which plain `worktree add` reports a missing branch
and the `-b` retry succeeds. -/
def missingBranchGit : GitOracle :=
  { happyGit with addErr := fun _ _ _ => some "fatal: invalid reference: dev" }

/-- An environment in which plain `worktree add` fails for a non-branch
reason. -/
def lockedGit : GitOracle :=
  { happyGit with addErr := fun _ _ _ => some "fatal: could not lock config file" }

/-- Is this effect one of the worktree-creation git commands? -/
def isWtEffect : Effect → Bool
  | Effect.gitWorktreeAdd _ _ _ => true
  | Effect.gitWorktreeAddB _ _ _ => true
  | _ => false

/-- Is this effect a repository-provisioning git command (fetch or clone)? -/
def isProvisionEffect : Effect → Bool
  | Effect.gitFetch _ => true
  | Effect.gitClone _ _ => true
  | _ => false

/-- An environment in which `worktree add` fails with a non-branch error
for the `dev` worktree path only. -/
def failDevGit : GitOracle :=
  { happyGit with
    addErr := fun _ wt _ =>
      if wt == "/base/repo/dev" then some "fatal: could not create directory"
      else none }

/-- A TUI state that is already settled (for exercising the settle guard). -/
def tuiSettledState : TuiState :=
  { urlVal := "u", branchVal := "b", dirVal := "/d", focusIndex := 3,
    settled := true, errText := none,
    outcome := some (PromiseResult.rejected "Cancelled by user."),
    actions := [TuiAction.focusField 0, TuiAction.destroyScreen,
                TuiAction.deliverReject "Cancelled by user."] }

/-- An unsettled TUI state whose three fields are filled. -/
def tuiFilledState : TuiState :=
  { urlVal := "https://host/org/repo.git", branchVal := "dev", dirVal := "/d",
    focusIndex := 2, settled := false, errText := none, outcome := none,
    actions := [TuiAction.focusField 0] }

/-- An unsettled TUI state with a filled url but a blank branch field. -/
def tuiNoBranchState : TuiState :=
  { urlVal := "https://host/org/repo.git", branchVal := "  ", dirVal := "/d",
    focusIndex := 1, settled := false, errText := none, outcome := none,
    actions := [TuiAction.focusField 0] }

/-- An unsettled TUI state with filled url and branch but a blank base-dir
field. -/
def tuiNoDirState : TuiState :=
  { urlVal := "https://host/org/repo.git", branchVal := "dev", dirVal := "",
    focusIndex := 2, settled := false, errText := none, outcome := none,
    actions := [TuiAction.focusField 0] }

/-! ## Lemmas -/

theorem strData_append (a b : String) : (a ++ b).data = a.data ++ b.data := rfl

theorem mk_data (s : String) : String.mk s.data = s := rfl

theorem strMem_iff (l : List String) (x : String) :
    strMem l x = true ↔ x ∈ l := by
  simp only [strMem, List.any_eq_true, beq_iff_eq]
  constructor
  · rintro ⟨y, hy, rfl⟩; exact hy
  · intro h; exact ⟨x, h, rfl⟩

theorem pathExistsIn_iff (fs : List String) (p : String) :
    pathExistsIn fs p = true ↔ p ∈ fs :=
  strMem_iff fs p

theorem insertPath_of_mem (fs : List String) (p : String) (h : p ∈ fs) :
    insertPath fs p = fs := by
  unfold insertPath
  rw [if_pos ((pathExistsIn_iff fs p).mpr h)]

theorem mem_insertPath_self (fs : List String) (p : String) :
    p ∈ insertPath fs p := by
  unfold insertPath
  split
  · exact (pathExistsIn_iff fs p).mp (by assumption)
  · exact List.mem_cons_self p fs

theorem mem_insertPath_of_mem (fs : List String) (p q : String) (h : q ∈ fs) :
    q ∈ insertPath fs p := by
  unfold insertPath
  split
  · exact h
  · exact List.mem_cons_of_mem p h

theorem pathExistsIn_insertPath_ne (fs : List String) (p q : String)
    (h : q ≠ p) : pathExistsIn (insertPath fs p) q = pathExistsIn fs q := by
  unfold insertPath
  split
  · rfl
  · simp only [pathExistsIn, strMem, List.any_cons]
    have : (p == q) = false := beq_eq_false_iff_ne.mpr (fun e => h e.symm)
    simp [this]

theorem joinPath_ne_left (a b : String) : joinPath a b ≠ a := by
  intro h
  have hlen := congrArg (fun s => s.data.length) h
  simp only [joinPath] at hlen
  simp at hlen

theorem charsHaveSub_append (n l1 l2 : List Char)
    (h : charsHaveSub n l2 = true) : charsHaveSub n (l1 ++ l2) = true := by
  induction l1 with
  | nil => simpa using h
  | cons c cs ih => simp [charsHaveSub, ih]

theorem noSlash_lastSegCore (l : List Char) (h : '/' ∉ l) :
    lastSegCore l = none := by
  induction l with
  | nil => rfl
  | cons c cs ih =>
    have hc : ¬ c = '/' := fun e => h (e ▸ List.mem_cons_self c cs)
    have hcs : '/' ∉ cs := fun m => h (List.mem_cons_of_mem _ m)
    simp [lastSegCore, ih hcs, hc]

theorem lastSegCore_append (name : List Char) (h : '/' ∉ name) (xs : List Char) :
    lastSegCore (xs ++ '/' :: name) = some name := by
  induction xs with
  | nil => simp [lastSegCore, noSlash_lastSegCore name h]
  | cons x xs ih => simp [lastSegCore, ih]

theorem stripDotGit_of_not (l : List Char) (h : endsWithDotGit l = false) :
    stripDotGit l = l := by
  unfold stripDotGit
  rw [if_neg (of_decide_eq_false h)]

theorem stripDotGit_append_git (l : List Char) (hne : l ≠ []) :
    stripDotGit (l ++ ['.', 'g', 'i', 't']) = l := by
  have hlen : (l ++ ['.', 'g', 'i', 't']).length = l.length + 4 := by simp
  unfold stripDotGit
  rw [if_pos]
  · rw [hlen]
    simp [List.take_left]
  · constructor
    · rw [hlen]
      have := List.length_pos.mpr hne
      omega
    · rw [hlen]
      simp [List.drop_left]

theorem ensureBare_spec (g : GitOracle) (url bp : String) (s : RunState) :
    (pathExistsIn s.fs bp = true →
      ensureBareRepository g url bp s
        = ({ s with trace := s.trace ++ [Effect.gitFetch bp] }, g.fetchErr bp))
    ∧ (pathExistsIn s.fs bp = false →
      (g.cloneErr url bp = none →
        ensureBareRepository g url bp s
          = ({ fs := insertPath s.fs bp,
               trace := s.trace ++ [Effect.gitClone url bp] }, none))
      ∧ (∀ e, g.cloneErr url bp = some e →
        ensureBareRepository g url bp s
          = ({ s with trace := s.trace ++ [Effect.gitClone url bp] }, some e))) := by
  refine ⟨fun h => ?_, fun h => ⟨fun hc => ?_, fun e hc => ?_⟩⟩
  · unfold ensureBareRepository
    cases hf : g.fetchErr bp <;> simp [h, hf, emit]
  · unfold ensureBareRepository
    simp [h, hc, emit, mkdirFs]
  · unfold ensureBareRepository
    simp [h, hc, emit]

theorem createWorktree_conflict (g : GitOracle) (bp wt b : String)
    (s : RunState) (h : pathExistsIn s.fs wt = true) :
    createWorktree g bp wt b s
      = (s, some ("Worktree path " ++ wt ++ " already exists.")) := by
  unfold createWorktree
  simp [h]

theorem createWorktree_ok (g : GitOracle) (bp wt b : String) (s : RunState)
    (h : pathExistsIn s.fs wt = false) (ha : g.addErr bp wt b = none) :
    createWorktree g bp wt b s
      = ({ fs := insertPath s.fs wt,
           trace := s.trace ++ [Effect.gitWorktreeAdd bp wt b] }, none) := by
  unfold createWorktree
  simp [h, ha, emit, mkdirFs]

theorem createWorktree_retry (g : GitOracle) (bp wt b e : String)
    (s : RunState) (h : pathExistsIn s.fs wt = false)
    (ha : g.addErr bp wt b = some e) (hm : isMissingBranchError e = true) :
    (g.addBErr bp b wt = none →
      createWorktree g bp wt b s
        = ({ fs := insertPath s.fs wt,
             trace := s.trace ++ [Effect.gitWorktreeAdd bp wt b,
                                   Effect.gitWorktreeAddB bp b wt] }, none))
    ∧ (∀ e2, g.addBErr bp b wt = some e2 →
      createWorktree g bp wt b s
        = ({ s with trace := s.trace ++ [Effect.gitWorktreeAdd bp wt b,
                                          Effect.gitWorktreeAddB bp b wt] },
           some e2)) := by
  constructor
  · intro hb
    unfold createWorktree
    simp [h, ha, hm, hb, emit, mkdirFs]
  · intro e2 hb
    unfold createWorktree
    simp [h, ha, hm, hb, emit]

theorem createWorktree_rethrow (g : GitOracle) (bp wt b e : String)
    (s : RunState) (h : pathExistsIn s.fs wt = false)
    (ha : g.addErr bp wt b = some e) (hm : isMissingBranchError e = false) :
    createWorktree g bp wt b s
      = ({ s with trace := s.trace ++ [Effect.gitWorktreeAdd bp wt b] },
         some e) := by
  unfold createWorktree
  simp [h, ha, hm, emit]

theorem createWorktree_trace_ext (g : GitOracle) (bp wt b : String)
    (s : RunState) :
    ∃ ext, (createWorktree g bp wt b s).1.trace = s.trace ++ ext
      ∧ ext.all isWtEffect = true := by
  cases hx : pathExistsIn s.fs wt
  · cases ha : g.addErr bp wt b
    · exact ⟨[Effect.gitWorktreeAdd bp wt b],
        by rw [createWorktree_ok g bp wt b s hx ha], by simp [isWtEffect]⟩
    case some e =>
      cases hm : isMissingBranchError e
      · exact ⟨[Effect.gitWorktreeAdd bp wt b],
          by rw [createWorktree_rethrow g bp wt b e s hx ha hm],
          by simp [isWtEffect]⟩
      · cases hb : g.addBErr bp b wt
        · exact ⟨[Effect.gitWorktreeAdd bp wt b, Effect.gitWorktreeAddB bp b wt],
            by rw [(createWorktree_retry g bp wt b e s hx ha hm).1 hb],
            by simp [isWtEffect]⟩
        case some e2 =>
          exact ⟨[Effect.gitWorktreeAdd bp wt b, Effect.gitWorktreeAddB bp b wt],
            by rw [(createWorktree_retry g bp wt b e s hx ha hm).2 e2 hb],
            by simp [isWtEffect]⟩
  · exact ⟨[], by rw [createWorktree_conflict g bp wt b s hx]; simp, by simp⟩

theorem createWorktree_fs_mono (g : GitOracle) (bp wt b : String)
    (s : RunState) (q : String) (h : q ∈ s.fs) :
    q ∈ (createWorktree g bp wt b s).1.fs := by
  cases hx : pathExistsIn s.fs wt
  · cases ha : g.addErr bp wt b
    · rw [createWorktree_ok g bp wt b s hx ha]
      exact mem_insertPath_of_mem s.fs wt q h
    case some e =>
      cases hm : isMissingBranchError e
      · rw [createWorktree_rethrow g bp wt b e s hx ha hm]
        exact h
      · cases hb : g.addBErr bp b wt
        · rw [(createWorktree_retry g bp wt b e s hx ha hm).1 hb]
          exact mem_insertPath_of_mem s.fs wt q h
        case some e2 =>
          rw [(createWorktree_retry g bp wt b e s hx ha hm).2 e2 hb]
          exact h
  · rw [createWorktree_conflict g bp wt b s hx]
    exact h

theorem createWorktree_ok_mem (g : GitOracle) (bp wt b : String)
    (s : RunState) (s2 : RunState)
    (h : createWorktree g bp wt b s = (s2, none)) : wt ∈ s2.fs := by
  cases hx : pathExistsIn s.fs wt
  · cases ha : g.addErr bp wt b
    · rw [createWorktree_ok g bp wt b s hx ha] at h
      cases h
      exact mem_insertPath_self s.fs wt
    case some e =>
      cases hm : isMissingBranchError e
      · rw [createWorktree_rethrow g bp wt b e s hx ha hm] at h
        cases h
      · cases hb : g.addBErr bp b wt
        · rw [(createWorktree_retry g bp wt b e s hx ha hm).1 hb] at h
          cases h
          exact mem_insertPath_self s.fs wt
        case some e2 =>
          rw [(createWorktree_retry g bp wt b e s hx ha hm).2 e2 hb] at h
          cases h
  · rw [createWorktree_conflict g bp wt b s hx] at h
    cases h

theorem ensureBare_fs_mono (g : GitOracle) (url bp : String) (s : RunState)
    (q : String) (h : q ∈ s.fs) :
    q ∈ (ensureBareRepository g url bp s).1.fs := by
  unfold ensureBareRepository
  split
  · cases hf : g.fetchErr bp <;> simp only [hf] <;> exact h
  · cases hc : g.cloneErr url bp <;> simp only [hc]
    · exact mem_insertPath_of_mem s.fs bp q h
    · exact h

theorem ensureBare_ok_mem (g : GitOracle) (url bp : String)
    (s s1 : RunState) (h : ensureBareRepository g url bp s = (s1, none)) :
    bp ∈ s1.fs := by
  cases hx : pathExistsIn s.fs bp
  · cases hc : g.cloneErr url bp
    · rw [((ensureBare_spec g url bp s).2 hx).1 hc] at h
      cases h
      exact mem_insertPath_self s.fs bp
    case some e =>
      rw [((ensureBare_spec g url bp s).2 hx).2 e hc] at h
      cases h
  · rw [(ensureBare_spec g url bp s).1 hx] at h
    have h2 := congrArg Prod.snd h
    have h1 := congrArg Prod.fst h
    simp at h1 h2
    rw [← h1]
    exact (pathExistsIn_iff s.fs bp).mp hx

theorem provisionBranches_spec (g : GitOracle) (bp rd : String) :
    ∀ (bs : List String) (s : RunState),
      ((provisionBranches g bp rd bs s).2.map (fun o => o.branch) = bs)
      ∧ ((provisionBranches g bp rd bs s).2.map (fun o => o.worktreePath)
          = bs.map (fun b => joinPath rd b))
      ∧ (∃ ext, (provisionBranches g bp rd bs s).1.trace = s.trace ++ ext
          ∧ ext.all isWtEffect = true) := by
  intro bs
  induction bs with
  | nil => exact fun s => ⟨rfl, rfl, [], by simp [provisionBranches], rfl⟩
  | cons b bs ih =>
    intro s
    obtain ⟨hb, hw, ext2, he2, ha2⟩ :=
      ih (createWorktree g bp (joinPath rd b) b s).1
    obtain ⟨ext1, he1, ha1⟩ := createWorktree_trace_ext g bp (joinPath rd b) b s
    refine ⟨?_, ?_, ext1 ++ ext2, ?_, ?_⟩
    · simpa [provisionBranches] using hb
    · simpa [provisionBranches] using hw
    · show (provisionBranches g bp rd (b :: bs) s).1.trace = _
      unfold provisionBranches
      rw [he2, he1, List.append_assoc]
    · simp [List.all_append, ha1, ha2]

theorem mem_of_all_wt (ext : List Effect) (h : ext.all isWtEffect = true)
    (x : Effect) (hm : x ∈ ext) : isWtEffect x = true :=
  List.all_eq_true.mp h x hm

theorem wt_not_provision (x : Effect) (h : isWtEffect x = true) :
    isProvisionEffect x = false := by
  cases x <;> simp_all [isWtEffect, isProvisionEffect]

theorem filter_provision_of_wt (ext : List Effect)
    (h : ext.all isWtEffect = true) : ext.filter isProvisionEffect = [] := by
  induction ext with
  | nil => rfl
  | cons x xs ih =>
    rw [List.all_cons, Bool.and_eq_true] at h
    simp [List.filter_cons, wt_not_provision x h.1, ih h.2]

theorem runMulti_valid_fail (g : GitOracle) (cwd : String) (fs0 : List String)
    (urlArg : Option String) (tokens : List String) (itv : Bool)
    (dirOpt repoName : String) (s1 : RunState) (e : String)
    (hu : (jsTrim (urlArg.getD "")).data.isEmpty = false)
    (hb : parseBranches tokens ≠ [])
    (hn : resolveRepoName (jsTrim (urlArg.getD "")) = Except.ok repoName)
    (heb : ensureBareRepository g (jsTrim (urlArg.getD ""))
        (joinPath (joinPath (resolvedDir dirOpt cwd) repoName) ".bare")
        (initialState fs0 (joinPath (resolvedDir dirOpt cwd) repoName))
      = (s1, some e)) :
    runMulti g cwd fs0 urlArg tokens itv dirOpt
      = { exitCode := 1, errMsg := some e, prompted := false,
          outcomes := [], state := s1 } := by
  have hb' : (parseBranches tokens).isEmpty = false := by
    cases hpb : parseBranches tokens
    · exact absurd hpb hb
    · rfl
  unfold runMulti
  simp [hu, hb', hn, heb]

theorem runMulti_valid_ok (g : GitOracle) (cwd : String) (fs0 : List String)
    (urlArg : Option String) (tokens : List String) (itv : Bool)
    (dirOpt repoName : String) (s1 : RunState)
    (hu : (jsTrim (urlArg.getD "")).data.isEmpty = false)
    (hb : parseBranches tokens ≠ [])
    (hn : resolveRepoName (jsTrim (urlArg.getD "")) = Except.ok repoName)
    (heb : ensureBareRepository g (jsTrim (urlArg.getD ""))
        (joinPath (joinPath (resolvedDir dirOpt cwd) repoName) ".bare")
        (initialState fs0 (joinPath (resolvedDir dirOpt cwd) repoName))
      = (s1, none)) :
    runMulti g cwd fs0 urlArg tokens itv dirOpt
      = { exitCode :=
            if (provisionBranches g
                  (joinPath (joinPath (resolvedDir dirOpt cwd) repoName) ".bare")
                  (joinPath (resolvedDir dirOpt cwd) repoName)
                  (parseBranches tokens) s1).2.any (fun o => o.err.isSome)
            then 1 else 0,
          errMsg := none, prompted := false,
          outcomes := (provisionBranches g
              (joinPath (joinPath (resolvedDir dirOpt cwd) repoName) ".bare")
              (joinPath (resolvedDir dirOpt cwd) repoName)
              (parseBranches tokens) s1).2,
          state := (provisionBranches g
              (joinPath (joinPath (resolvedDir dirOpt cwd) repoName) ".bare")
              (joinPath (resolvedDir dirOpt cwd) repoName)
              (parseBranches tokens) s1).1 } := by
  have hb' : (parseBranches tokens).isEmpty = false := by
    cases hpb : parseBranches tokens
    · exact absurd hpb hb
    · rfl
  unfold runMulti
  simp [hu, hb', hn, heb]

/-! ## Claim theorems -/

/-- Claim C1: after a failed first worktree-add attempt, the Worktree
Creator retries exactly once with the new-branch variant (`worktree add -b
<branch> <worktreePath>`) if and only if the error message contains, as a
case-insensitive substring, one of the two literal phrases "invalid
reference" or "not a valid object name"; any other error is rethrown for
that branch with no retry, and a failure of the retry itself is not retried
again. -/
theorem c1_missing_branch_retry (g : GitOracle) (s : RunState)
    (bp wt branch e : String)
    (hex : pathExistsIn s.fs wt = false)
    (hfail : g.addErr bp wt branch = some e) :
    (isMissingBranchError e = true →
      (createWorktree g bp wt branch s).1.trace
        = s.trace ++ [Effect.gitWorktreeAdd bp wt branch,
                       Effect.gitWorktreeAddB bp branch wt]
      ∧ (createWorktree g bp wt branch s).2 = g.addBErr bp branch wt)
    ∧ (isMissingBranchError e = false →
      (createWorktree g bp wt branch s).1.trace
        = s.trace ++ [Effect.gitWorktreeAdd bp wt branch]
      ∧ (createWorktree g bp wt branch s).2 = some e)
    ∧ (isMissingBranchError e = true ↔
        (strHasSub (lowerStr e) "invalid reference" = true
         ∨ strHasSub (lowerStr e) "not a valid object name" = true)) := by
  refine ⟨fun hm => ?_, fun hm => ?_, ?_⟩
  · cases hb : g.addBErr bp branch wt
    · rw [(createWorktree_retry g bp wt branch e s hex hfail hm).1 hb]
      exact ⟨rfl, rfl⟩
    case some e2 =>
      rw [(createWorktree_retry g bp wt branch e s hex hfail hm).2 e2 hb]
      exact ⟨rfl, rfl⟩
  · rw [createWorktree_rethrow g bp wt branch e s hex hfail hm]
    exact ⟨rfl, rfl⟩
  · simp [isMissingBranchError, MISSING_BRANCH_PATTERNS]

/-- Witness for C1 at a concrete missing-branch error: the retry command is
issued exactly once, in order, and the retry outcome decides the result. -/
theorem c1_missing_branch_retry_witness :
    (createWorktree missingBranchGit "/base/repo/.bare" "/base/repo/dev" "dev"
        { fs := [], trace := [] }).1.trace
      = [Effect.gitWorktreeAdd "/base/repo/.bare" "/base/repo/dev" "dev",
         Effect.gitWorktreeAddB "/base/repo/.bare" "dev" "/base/repo/dev"]
    ∧ (createWorktree missingBranchGit "/base/repo/.bare" "/base/repo/dev"
        "dev" { fs := [], trace := [] }).2 = none
    ∧ (createWorktree lockedGit "/base/repo/.bare" "/base/repo/dev" "dev"
        { fs := [], trace := [] }).1.trace
      = [Effect.gitWorktreeAdd "/base/repo/.bare" "/base/repo/dev" "dev"]
    ∧ (createWorktree lockedGit "/base/repo/.bare" "/base/repo/dev" "dev"
        { fs := [], trace := [] }).2
      = some "fatal: could not lock config file" := by
  have h1 := c1_missing_branch_retry missingBranchGit { fs := [], trace := [] }
    "/base/repo/.bare" "/base/repo/dev" "dev" "fatal: invalid reference: dev"
    rfl rfl
  have h2 := c1_missing_branch_retry lockedGit { fs := [], trace := [] }
    "/base/repo/.bare" "/base/repo/dev" "dev" "fatal: could not lock config file"
    rfl rfl
  have hm1 : isMissingBranchError "fatal: invalid reference: dev" = true := by
    decide
  have hm2 : isMissingBranchError "fatal: could not lock config file" = false := by
    decide
  obtain ⟨ht1, hr1⟩ := h1.1 hm1
  obtain ⟨ht2, hr2⟩ := h2.2.1 hm2
  refine ⟨by simpa using ht1, by simpa using hr1, by simpa using ht2,
    by simpa using hr2⟩

theorem mem_dedupAux_not_seen (l : List String) :
    ∀ (seen : List String) (x : String), x ∈ dedupAux seen l → x ∉ seen := by
  induction l with
  | nil => intro seen x h; simp [dedupAux] at h
  | cons y ys ih =>
    intro seen x h
    unfold dedupAux at h
    by_cases hy : strMem seen y = true
    · rw [if_pos hy] at h
      exact ih seen x h
    · rw [if_neg hy] at h
      rcases List.mem_cons.mp h with rfl | h2
      · exact fun hx => hy ((strMem_iff seen x).mpr hx)
      · intro hx
        exact ih (y :: seen) x h2 (List.mem_cons_of_mem y hx)

theorem dedupAux_nodup (l : List String) :
    ∀ seen : List String, (dedupAux seen l).Nodup := by
  induction l with
  | nil => intro seen; simp [dedupAux]
  | cons y ys ih =>
    intro seen
    unfold dedupAux
    by_cases hy : strMem seen y = true
    · rw [if_pos hy]
      exact ih seen
    · rw [if_neg hy]
      refine List.nodup_cons.mpr ⟨fun hmem => ?_, ih (y :: seen)⟩
      exact mem_dedupAux_not_seen ys (y :: seen) y hmem (List.mem_cons_self y seen)

/-- Claim C2: the Branch List Parser splits each raw token on commas and
whitespace, trims, discards empties, and deduplicates preserving first-seen
order; "dev, test dev release" parses to exactly ["dev", "test",
"release"], and a run with branch input "dev test dev" creates exactly the
two worktrees dev and test, once each, in that order. -/
theorem c2_branch_list_parsing :
    (∀ tokens : List String, (parseBranches tokens).Nodup)
    ∧ parseBranches ["dev, test dev release"] = ["dev", "test", "release"]
    ∧ (runMulti happyGit "/cwd" [] (some "https://host/org/repo.git")
        ["dev test dev"] false "/base").outcomes.map (fun o => o.branch)
      = ["dev", "test"]
    ∧ (runMulti happyGit "/cwd" [] (some "https://host/org/repo.git")
        ["dev test dev"] false "/base").state.trace.filter isWtEffect
      = [Effect.gitWorktreeAdd "/base/repo/.bare" "/base/repo/dev" "dev",
         Effect.gitWorktreeAdd "/base/repo/.bare" "/base/repo/test" "test"]
    ∧ (runMulti happyGit "/cwd" [] (some "https://host/org/repo.git")
        ["dev test dev"] false "/base").exitCode = 0 := by
  refine ⟨fun tokens => dedupAux_nodup _ [], by decide, by decide, by decide,
    by decide⟩

/-- Witness for C2: the no-duplicates guarantee evaluated on a concrete
token list with a repeated branch. -/
theorem c2_branch_list_parsing_witness :
    (parseBranches ["dev,dev dev"]).Nodup
    ∧ parseBranches ["dev, test dev release"] = ["dev", "test", "release"] :=
  ⟨c2_branch_list_parsing.1 ["dev,dev dev"], c2_branch_list_parsing.2.1⟩

theorem runCli_valid_eq (g : GitOracle) (cwd : String) (fs0 : List String)
    (uA bA : Option String) (dirOpt url branch dir repoName : String)
    (hin : resolveInputs uA bA dirOpt cwd = Except.ok (url, branch, dir))
    (hname : resolveRepoName url = Except.ok repoName) :
    runCli g cwd fs0 uA bA dirOpt
      = (match ensureBareRepository g url
            (joinPath (joinPath dir repoName) ".bare")
            (initialState fs0 (joinPath dir repoName)) with
         | (s1, some e) => { exitCode := 1, errMsg := some e, state := s1 }
         | (s1, none) =>
           match createWorktree g (joinPath (joinPath dir repoName) ".bare")
               (joinPath (joinPath dir repoName) branch) branch s1 with
           | (s2, some e) => { exitCode := 1, errMsg := some e, state := s2 }
           | (s2, none) => { exitCode := 0, errMsg := none, state := s2 }) := by
  unfold runCli
  simp [hin, hname]


/-- Claim C3: a branch whose computed worktree path already exists fails
with the path-conflict error before any git operation is attempted, and a
second provisioning run with the same url, branch and dir fails with a
message matching already-exists while leaving the filesystem (and in
particular the first run's worktree) unchanged. -/
theorem c3_path_conflict_idempotence (g : GitOracle) (s : RunState)
    (bp wt b : String) (cwd dirOpt url branch dir repoName : String)
    (fs0 : List String) (uA bA : Option String) :
    (pathExistsIn s.fs wt = true →
      createWorktree g bp wt b s
        = (s, some ("Worktree path " ++ wt ++ " already exists."))
      ∧ strHasSub ("Worktree path " ++ wt ++ " already exists.")
          "already exists" = true)
    ∧ (resolveInputs uA bA dirOpt cwd = Except.ok (url, branch, dir) →
       resolveRepoName url = Except.ok repoName →
       (runCli g cwd fs0 uA bA dirOpt).exitCode = 0 →
       g.fetchErr (joinPath (joinPath dir repoName) ".bare") = none →
       runCli g cwd (runCli g cwd fs0 uA bA dirOpt).state.fs uA bA dirOpt
         = { exitCode := 1,
             errMsg := some ("Worktree path "
                 ++ joinPath (joinPath dir repoName) branch
                 ++ " already exists."),
             state := { fs := (runCli g cwd fs0 uA bA dirOpt).state.fs,
                        trace := [Effect.ensureDir (joinPath dir repoName),
                                   Effect.gitFetch (joinPath
                                     (joinPath dir repoName) ".bare")] } }) := by
  constructor
  · intro h
    refine ⟨createWorktree_conflict g bp wt b s h, ?_⟩
    show charsHaveSub _ _ = true
    rw [show ("Worktree path " ++ wt ++ " already exists.").data
        = ("Worktree path " ++ wt).data ++ (" already exists.").data from rfl]
    exact charsHaveSub_append _ _ _ (by decide)
  · intro hin hname hexit hfetch
    rw [runCli_valid_eq g cwd fs0 uA bA dirOpt url branch dir repoName hin hname]
      at hexit
    rcases heb : ensureBareRepository g url
        (joinPath (joinPath dir repoName) ".bare")
        (initialState fs0 (joinPath dir repoName)) with ⟨s1, oe⟩
    rw [heb] at hexit
    cases oe with
    | some e => simp at hexit
    | none =>
      simp only [] at hexit
      rcases hcw : createWorktree g (joinPath (joinPath dir repoName) ".bare")
          (joinPath (joinPath dir repoName) branch) branch s1 with ⟨s2, oc⟩
      rw [hcw] at hexit
      cases oc with
      | some e => simp at hexit
      | none =>
        have hr1 : (runCli g cwd fs0 uA bA dirOpt).state = s2 := by
          rw [runCli_valid_eq g cwd fs0 uA bA dirOpt url branch dir repoName
            hin hname, heb]
          simp only []
          rw [hcw]
        have hwt : joinPath (joinPath dir repoName) branch ∈ s2.fs :=
          createWorktree_ok_mem g _ _ branch s1 s2 hcw
        have hbp1 : joinPath (joinPath dir repoName) ".bare" ∈ s1.fs :=
          ensureBare_ok_mem g url _ (initialState fs0 (joinPath dir repoName))
            s1 heb
        have hbp : joinPath (joinPath dir repoName) ".bare" ∈ s2.fs := by
          have h2 := createWorktree_fs_mono g
            (joinPath (joinPath dir repoName) ".bare")
            (joinPath (joinPath dir repoName) branch) branch s1 _ hbp1
          rw [hcw] at h2
          exact h2
        have hrd2 : joinPath dir repoName ∈ s1.fs := by
          have h1 := ensureBare_fs_mono g url
            (joinPath (joinPath dir repoName) ".bare")
            (initialState fs0 (joinPath dir repoName)) _
            (mem_insertPath_self fs0 (joinPath dir repoName))
          rw [heb] at h1
          exact h1
        have hrd : joinPath dir repoName ∈ s2.fs := by
          have h2 := createWorktree_fs_mono g
            (joinPath (joinPath dir repoName) ".bare")
            (joinPath (joinPath dir repoName) branch) branch s1 _ hrd2
          rw [hcw] at h2
          exact h2
        rw [hr1]
        rw [runCli_valid_eq g cwd s2.fs uA bA dirOpt url branch dir repoName
          hin hname]
        have hinit : initialState s2.fs (joinPath dir repoName)
            = { fs := s2.fs,
                trace := [Effect.ensureDir (joinPath dir repoName)] } := by
          unfold initialState mkdirFs emit
          simp [insertPath_of_mem s2.fs (joinPath dir repoName) hrd]
        rw [hinit]
        have heb2 := (ensureBare_spec g url
            (joinPath (joinPath dir repoName) ".bare")
            { fs := s2.fs,
              trace := [Effect.ensureDir (joinPath dir repoName)] }).1
          ((pathExistsIn_iff _ _).mpr hbp)
        rw [hfetch] at heb2
        rw [heb2]
        simp only []
        rw [createWorktree_conflict g (joinPath (joinPath dir repoName) ".bare")
          (joinPath (joinPath dir repoName) branch) branch
          { fs := s2.fs,
            trace := [Effect.ensureDir (joinPath dir repoName)]
              ++ [Effect.gitFetch (joinPath (joinPath dir repoName) ".bare")] }
          ((pathExistsIn_iff _ _).mpr hwt)]
        simp

/-- Witness for C3: a concrete conflicting path fails without git commands,
and a concrete successful run followed by an identical rerun fails with the
already-exists message, leaving the filesystem unchanged. -/
theorem c3_path_conflict_idempotence_witness :
    (createWorktree happyGit "/b/.bare" "/b/main" "main"
        { fs := ["/b/main"], trace := [] }
      = ({ fs := ["/b/main"], trace := [] },
         some ("Worktree path " ++ "/b/main" ++ " already exists."))
      ∧ strHasSub ("Worktree path " ++ "/b/main" ++ " already exists.")
          "already exists" = true)
    ∧ runCli happyGit "/cwd"
        ["/base/Hello-World/main", "/base/Hello-World/.bare",
         "/base/Hello-World"]
        (some "https://host/org/Hello-World.git") (some "main") "/base"
      = { exitCode := 1,
          errMsg := some "Worktree path /base/Hello-World/main already exists.",
          state := { fs := ["/base/Hello-World/main",
                            "/base/Hello-World/.bare", "/base/Hello-World"],
                     trace := [Effect.ensureDir "/base/Hello-World",
                               Effect.gitFetch "/base/Hello-World/.bare"] } } := by
  have h := c3_path_conflict_idempotence happyGit
    { fs := ["/b/main"], trace := [] } "/b/.bare" "/b/main" "main" "/cwd"
    "/base" "https://host/org/Hello-World.git" "main" "/base" "Hello-World"
    [] (some "https://host/org/Hello-World.git") (some "main")
  exact ⟨h.1 rfl, h.2 rfl rfl rfl rfl⟩

theorem runMulti_trace_shape (g : GitOracle) (cwd : String)
    (fs0 : List String) (urlArg : Option String) (tokens : List String)
    (itv : Bool) (dirOpt repoName : String)
    (hu : (jsTrim (urlArg.getD "")).data.isEmpty = false)
    (hb : parseBranches tokens ≠ [])
    (hn : resolveRepoName (jsTrim (urlArg.getD "")) = Except.ok repoName) :
    ∃ ext, (runMulti g cwd fs0 urlArg tokens itv dirOpt).state.trace
        = Effect.ensureDir (joinPath (resolvedDir dirOpt cwd) repoName)
          :: (if pathExistsIn fs0
                  (joinPath (joinPath (resolvedDir dirOpt cwd) repoName) ".bare")
              then Effect.gitFetch
                (joinPath (joinPath (resolvedDir dirOpt cwd) repoName) ".bare")
              else Effect.gitClone (jsTrim (urlArg.getD ""))
                (joinPath (joinPath (resolvedDir dirOpt cwd) repoName) ".bare"))
          :: ext
      ∧ ext.all isWtEffect = true := by
  have hne : joinPath (joinPath (resolvedDir dirOpt cwd) repoName) ".bare"
      ≠ joinPath (resolvedDir dirOpt cwd) repoName :=
    joinPath_ne_left (joinPath (resolvedDir dirOpt cwd) repoName) ".bare"
  have hsp : pathExistsIn
      (initialState fs0 (joinPath (resolvedDir dirOpt cwd) repoName)).fs
      (joinPath (joinPath (resolvedDir dirOpt cwd) repoName) ".bare")
      = pathExistsIn fs0
        (joinPath (joinPath (resolvedDir dirOpt cwd) repoName) ".bare") :=
    pathExistsIn_insertPath_ne fs0 (joinPath (resolvedDir dirOpt cwd) repoName)
      (joinPath (joinPath (resolvedDir dirOpt cwd) repoName) ".bare") hne
  cases hbp : pathExistsIn fs0
      (joinPath (joinPath (resolvedDir dirOpt cwd) repoName) ".bare")
  · have hx : pathExistsIn
        (initialState fs0 (joinPath (resolvedDir dirOpt cwd) repoName)).fs
        (joinPath (joinPath (resolvedDir dirOpt cwd) repoName) ".bare")
        = false := by rw [hsp, hbp]
    have hspec := (ensureBare_spec g (jsTrim (urlArg.getD ""))
      (joinPath (joinPath (resolvedDir dirOpt cwd) repoName) ".bare")
      (initialState fs0 (joinPath (resolvedDir dirOpt cwd) repoName))).2 hx
    cases hc : g.cloneErr (jsTrim (urlArg.getD ""))
        (joinPath (joinPath (resolvedDir dirOpt cwd) repoName) ".bare")
    · have heb := hspec.1 hc
      rw [runMulti_valid_ok g cwd fs0 urlArg tokens itv dirOpt repoName _
        hu hb hn heb]
      obtain ⟨-, -, ext, hext, hall⟩ := provisionBranches_spec g
        (joinPath (joinPath (resolvedDir dirOpt cwd) repoName) ".bare")
        (joinPath (resolvedDir dirOpt cwd) repoName) (parseBranches tokens)
        { fs := insertPath
            (initialState fs0 (joinPath (resolvedDir dirOpt cwd) repoName)).fs
            (joinPath (joinPath (resolvedDir dirOpt cwd) repoName) ".bare"),
          trace := (initialState fs0
              (joinPath (resolvedDir dirOpt cwd) repoName)).trace
            ++ [Effect.gitClone (jsTrim (urlArg.getD ""))
                (joinPath (joinPath (resolvedDir dirOpt cwd) repoName) ".bare")] }
      refine ⟨ext, ?_, hall⟩
      rw [hext]
      simp [initialState, mkdirFs, emit]
    case some e =>
      have heb := hspec.2 e hc
      rw [runMulti_valid_fail g cwd fs0 urlArg tokens itv dirOpt repoName _ e
        hu hb hn heb]
      refine ⟨[], ?_, rfl⟩
      simp [initialState, mkdirFs, emit]
  · have hx : pathExistsIn
        (initialState fs0 (joinPath (resolvedDir dirOpt cwd) repoName)).fs
        (joinPath (joinPath (resolvedDir dirOpt cwd) repoName) ".bare")
        = true := by rw [hsp, hbp]
    have heb := (ensureBare_spec g (jsTrim (urlArg.getD ""))
      (joinPath (joinPath (resolvedDir dirOpt cwd) repoName) ".bare")
      (initialState fs0 (joinPath (resolvedDir dirOpt cwd) repoName))).1 hx
    cases hf : g.fetchErr
        (joinPath (joinPath (resolvedDir dirOpt cwd) repoName) ".bare")
    · rw [hf] at heb
      rw [runMulti_valid_ok g cwd fs0 urlArg tokens itv dirOpt repoName _
        hu hb hn heb]
      obtain ⟨-, -, ext, hext, hall⟩ := provisionBranches_spec g
        (joinPath (joinPath (resolvedDir dirOpt cwd) repoName) ".bare")
        (joinPath (resolvedDir dirOpt cwd) repoName) (parseBranches tokens)
        { fs := (initialState fs0
            (joinPath (resolvedDir dirOpt cwd) repoName)).fs,
          trace := (initialState fs0
              (joinPath (resolvedDir dirOpt cwd) repoName)).trace
            ++ [Effect.gitFetch
                (joinPath (joinPath (resolvedDir dirOpt cwd) repoName) ".bare")] }
      refine ⟨ext, ?_, hall⟩
      rw [hext]
      simp [initialState, mkdirFs, emit]
    case some e =>
      rw [hf] at heb
      rw [runMulti_valid_fail g cwd fs0 urlArg tokens itv dirOpt repoName _ e
        hu hb hn heb]
      refine ⟨[], ?_, rfl⟩
      simp [initialState, mkdirFs, emit]

/-- Claim C4: the Repository Provisioner runs exactly once per invocation
regardless of branch count; if the bare repository path exists it fetches
(and does not clone), otherwise the repo directory is ensured and a bare
clone is performed; a fetch or clone failure is surfaced (exit 1 with that
message) and nothing is ever removed. -/
theorem c4_provisioner_once (g : GitOracle) (cwd : String)
    (fs0 : List String) (urlArg : Option String) (tokens : List String)
    (itv : Bool) (dirOpt repoName : String)
    (hu : (jsTrim (urlArg.getD "")).data.isEmpty = false)
    (hb : parseBranches tokens ≠ [])
    (hn : resolveRepoName (jsTrim (urlArg.getD "")) = Except.ok repoName) :
    (((runMulti g cwd fs0 urlArg tokens itv dirOpt).state.trace.filter
        isProvisionEffect).length = 1)
    ∧ (pathExistsIn fs0
          (joinPath (joinPath (resolvedDir dirOpt cwd) repoName) ".bare") = true →
        Effect.gitFetch
            (joinPath (joinPath (resolvedDir dirOpt cwd) repoName) ".bare")
          ∈ (runMulti g cwd fs0 urlArg tokens itv dirOpt).state.trace
        ∧ ∀ u2 d2, Effect.gitClone u2 d2
          ∉ (runMulti g cwd fs0 urlArg tokens itv dirOpt).state.trace)
    ∧ (pathExistsIn fs0
          (joinPath (joinPath (resolvedDir dirOpt cwd) repoName) ".bare") = false →
        Effect.ensureDir (joinPath (resolvedDir dirOpt cwd) repoName)
          ∈ (runMulti g cwd fs0 urlArg tokens itv dirOpt).state.trace
        ∧ Effect.gitClone (jsTrim (urlArg.getD ""))
            (joinPath (joinPath (resolvedDir dirOpt cwd) repoName) ".bare")
          ∈ (runMulti g cwd fs0 urlArg tokens itv dirOpt).state.trace)
    ∧ (∀ e, pathExistsIn fs0
          (joinPath (joinPath (resolvedDir dirOpt cwd) repoName) ".bare") = true →
        g.fetchErr (joinPath (joinPath (resolvedDir dirOpt cwd) repoName) ".bare")
          = some e →
        (runMulti g cwd fs0 urlArg tokens itv dirOpt).exitCode = 1
        ∧ (runMulti g cwd fs0 urlArg tokens itv dirOpt).errMsg = some e)
    ∧ (∀ e, pathExistsIn fs0
          (joinPath (joinPath (resolvedDir dirOpt cwd) repoName) ".bare") = false →
        g.cloneErr (jsTrim (urlArg.getD ""))
            (joinPath (joinPath (resolvedDir dirOpt cwd) repoName) ".bare")
          = some e →
        (runMulti g cwd fs0 urlArg tokens itv dirOpt).exitCode = 1
        ∧ (runMulti g cwd fs0 urlArg tokens itv dirOpt).errMsg = some e)
    ∧ (∀ p, Effect.remove p
        ∉ (runMulti g cwd fs0 urlArg tokens itv dirOpt).state.trace) := by
  obtain ⟨ext, htr, hall⟩ := runMulti_trace_shape g cwd fs0 urlArg tokens itv
    dirOpt repoName hu hb hn
  have hsp := pathExistsIn_insertPath_ne fs0
    (joinPath (resolvedDir dirOpt cwd) repoName)
    (joinPath (joinPath (resolvedDir dirOpt cwd) repoName) ".bare")
    (joinPath_ne_left (joinPath (resolvedDir dirOpt cwd) repoName) ".bare")
  refine ⟨?_, fun hbp => ⟨?_, ?_⟩, fun hbp => ⟨?_, ?_⟩, fun e hbp hf => ?_,
    fun e hbp hc => ?_, fun p => ?_⟩
  · rw [htr]
    rw [List.filter_cons, List.filter_cons]
    have h1 : isProvisionEffect
        (Effect.ensureDir (joinPath (resolvedDir dirOpt cwd) repoName))
        = false := rfl
    have h2 : isProvisionEffect
        (if pathExistsIn fs0
            (joinPath (joinPath (resolvedDir dirOpt cwd) repoName) ".bare")
         then Effect.gitFetch
           (joinPath (joinPath (resolvedDir dirOpt cwd) repoName) ".bare")
         else Effect.gitClone (jsTrim (urlArg.getD ""))
           (joinPath (joinPath (resolvedDir dirOpt cwd) repoName) ".bare"))
        = true := by
      split <;> rfl
    rw [h1, h2, filter_provision_of_wt ext hall]
    simp
  · rw [htr, hbp]
    simp
  · intro u2 d2 hmem
    rw [htr, hbp] at hmem
    simp only [List.mem_cons] at hmem
    rcases hmem with h | h | h
    · cases h
    · cases h
    · have := mem_of_all_wt ext hall _ h
      simp [isWtEffect] at this
  · rw [htr]
    simp
  · rw [htr, hbp]
    simp
  · have heb := (ensureBare_spec g (jsTrim (urlArg.getD ""))
      (joinPath (joinPath (resolvedDir dirOpt cwd) repoName) ".bare")
      (initialState fs0 (joinPath (resolvedDir dirOpt cwd) repoName))).1
      (hsp.trans hbp)
    rw [hf] at heb
    rw [runMulti_valid_fail g cwd fs0 urlArg tokens itv dirOpt repoName _ e
      hu hb hn heb]
    exact ⟨rfl, rfl⟩
  · have heb := ((ensureBare_spec g (jsTrim (urlArg.getD ""))
      (joinPath (joinPath (resolvedDir dirOpt cwd) repoName) ".bare")
      (initialState fs0 (joinPath (resolvedDir dirOpt cwd) repoName))).2
      (hsp.trans hbp)).2 e hc
    rw [runMulti_valid_fail g cwd fs0 urlArg tokens itv dirOpt repoName _ e
      hu hb hn heb]
    exact ⟨rfl, rfl⟩
  · intro hmem
    rw [htr] at hmem
    simp only [List.mem_cons] at hmem
    rcases hmem with h | h | h
    · cases h
    · revert h
      split <;> intro h <;> cases h
    · have := mem_of_all_wt ext hall _ h
      simp [isWtEffect] at this

/-- Witness for C4: on a fresh directory the run clones exactly once; when
the bare repository already exists it fetches instead; nothing is removed. -/
theorem c4_provisioner_once_witness :
    ((runMulti happyGit "/cwd" [] (some "https://host/org/repo.git") ["dev"]
        false "/base").state.trace.filter isProvisionEffect).length = 1
    ∧ Effect.gitClone "https://host/org/repo.git" "/base/repo/.bare"
      ∈ (runMulti happyGit "/cwd" [] (some "https://host/org/repo.git")
          ["dev"] false "/base").state.trace
    ∧ Effect.gitFetch "/base/repo/.bare"
      ∈ (runMulti happyGit "/cwd" ["/base/repo/.bare"]
          (some "https://host/org/repo.git") ["dev"] false "/base").state.trace
    ∧ Effect.remove "/base/repo"
      ∉ (runMulti happyGit "/cwd" [] (some "https://host/org/repo.git")
          ["dev"] false "/base").state.trace := by
  have h1 := c4_provisioner_once happyGit "/cwd" []
    (some "https://host/org/repo.git") ["dev"] false "/base" "repo"
    (by decide) (by decide) rfl
  have h2 := c4_provisioner_once happyGit "/cwd" ["/base/repo/.bare"]
    (some "https://host/org/repo.git") ["dev"] false "/base" "repo"
    (by decide) (by decide) rfl
  exact ⟨h1.1, (h1.2.2.1 rfl).2, (h2.2.1 rfl).1, h1.2.2.2.2.2 "/base/repo"⟩

/-- Claim C5: when the URL's last path segment is `name` (not of the form
`x.git`) the resolver returns `name`; when it is `name.git` the suffix is
stripped and `name` is returned; a URL without any slash fails with a
message beginning "Invalid Git URL"; and the planner's derived paths are
the fixed joins of baseDir, repoName and branch, with the worktree path
equal to the three-way join. -/
theorem c5_repo_name_resolution (pre name url base nm br : String)
    (hslash : '/' ∉ name.data) (hne : name.data ≠ [])
    (hng : endsWithDotGit name.data = false)
    (hnoslash : '/' ∉ url.data) :
    resolveRepoName (pre ++ "/" ++ name) = Except.ok name
    ∧ resolveRepoName (pre ++ "/" ++ name ++ ".git") = Except.ok name
    ∧ (resolveRepoName url = Except.error invalidUrlMessage
       ∧ strStartsWith invalidUrlMessage "Invalid Git URL" = true)
    ∧ planPaths base nm br
      = (joinPath base nm, joinPath (joinPath base nm) ".bare",
         joinPath (joinPath base nm) br)
    ∧ joinPath (joinPath base nm) br = joinPath base (joinPath nm br) := by
  refine ⟨?_, ?_, ⟨?_, by decide⟩, rfl, ?_⟩
  · have hdata : (pre ++ "/" ++ name).data = pre.data ++ '/' :: name.data := by
      rw [strData_append, strData_append]
      simp
    unfold resolveRepoName
    rw [hdata, lastSegCore_append name.data hslash pre.data]
    simp only []
    rw [if_neg (by simpa [List.isEmpty_iff] using hne)]
    rw [stripDotGit_of_not name.data hng, mk_data]
  · have hdata : (pre ++ "/" ++ name ++ ".git").data
        = pre.data ++ '/' :: (name.data ++ ['.', 'g', 'i', 't']) := by
      rw [strData_append, strData_append, strData_append]
      simp
    have hseg : '/' ∉ name.data ++ ['.', 'g', 'i', 't'] := by
      intro hm
      rcases List.mem_append.mp hm with h | h
      · exact hslash h
      · simp at h
    unfold resolveRepoName
    rw [hdata, lastSegCore_append (name.data ++ ['.', 'g', 'i', 't']) hseg
      pre.data]
    simp only []
    rw [if_neg (by simp [List.isEmpty_iff])]
    rw [stripDotGit_append_git name.data hne, mk_data]
  · unfold resolveRepoName
    rw [noSlash_lastSegCore url.data hnoslash]
  · unfold joinPath
    simp

/-- Witness for C5: concrete URLs with and without a `.git` suffix, an
unslashed URL, and a concrete path plan. -/
theorem c5_repo_name_resolution_witness :
    resolveRepoName ("https://host/org" ++ "/" ++ "Hello-World")
      = Except.ok "Hello-World"
    ∧ resolveRepoName ("https://host/org" ++ "/" ++ "Hello-World" ++ ".git")
      = Except.ok "Hello-World"
    ∧ (resolveRepoName "nohost" = Except.error invalidUrlMessage
       ∧ strStartsWith invalidUrlMessage "Invalid Git URL" = true)
    ∧ planPaths "/base" "Hello-World" "main"
      = (joinPath "/base" "Hello-World",
         joinPath (joinPath "/base" "Hello-World") ".bare",
         joinPath (joinPath "/base" "Hello-World") "main")
    ∧ joinPath (joinPath "/base" "Hello-World") "main"
      = joinPath "/base" (joinPath "Hello-World" "main") :=
  c5_repo_name_resolution "https://host/org" "Hello-World" "nohost" "/base"
    "Hello-World" "main" (by decide) (by decide) (by decide) (by decide)

/-- Claim C6: in a non-interactive invocation with the url missing (or
blank after trimming) or no branch surviving parsing, the program fails
immediately with "Missing required arguments in non-interactive mode":
exit code 1, no prompt, no filesystem or git effect. -/
theorem c6_non_interactive_missing_args (g : GitOracle) (cwd : String)
    (fs0 : List String) (urlArg : Option String) (tokens : List String)
    (dirOpt : String)
    (hmiss : (jsTrim (urlArg.getD "")).data.isEmpty = true
             ∨ parseBranches tokens = []) :
    runMulti g cwd fs0 urlArg tokens false dirOpt
      = { exitCode := 1,
          errMsg := some "Missing required arguments in non-interactive mode",
          prompted := false, outcomes := [],
          state := { fs := fs0, trace := [] } } := by
  unfold runMulti
  rcases hmiss with h | h <;> simp [h]

/-- Witness for C6: running with no url and no branch tokens in
non-interactive mode. -/
theorem c6_non_interactive_missing_args_witness :
    runMulti happyGit "/cwd" [] none [] false ""
      = { exitCode := 1,
          errMsg := some "Missing required arguments in non-interactive mode",
          prompted := false, outcomes := [],
          state := { fs := [], trace := [] } } :=
  c6_non_interactive_missing_args happyGit "/cwd" [] none [] ""
    (Or.inl (by decide))

/-- Claim C7: a failure while creating one branch's worktree does not abort
the remaining branches: every parsed branch gets an outcome, in order, and
the exit status is zero exactly when no branch failed. -/
theorem c7_per_branch_aggregation (g : GitOracle) (cwd : String)
    (fs0 : List String) (urlArg : Option String) (tokens : List String)
    (itv : Bool) (dirOpt repoName : String) (s1 : RunState)
    (hu : (jsTrim (urlArg.getD "")).data.isEmpty = false)
    (hb : parseBranches tokens ≠ [])
    (hn : resolveRepoName (jsTrim (urlArg.getD "")) = Except.ok repoName)
    (heb : ensureBareRepository g (jsTrim (urlArg.getD ""))
        (joinPath (joinPath (resolvedDir dirOpt cwd) repoName) ".bare")
        (initialState fs0 (joinPath (resolvedDir dirOpt cwd) repoName))
      = (s1, none)) :
    (runMulti g cwd fs0 urlArg tokens itv dirOpt).outcomes.map
        (fun o => o.branch) = parseBranches tokens
    ∧ (runMulti g cwd fs0 urlArg tokens itv dirOpt).outcomes.map
        (fun o => o.worktreePath)
      = (parseBranches tokens).map
          (fun b => joinPath (joinPath (resolvedDir dirOpt cwd) repoName) b)
    ∧ ((runMulti g cwd fs0 urlArg tokens itv dirOpt).exitCode = 0
       ↔ ∀ o ∈ (runMulti g cwd fs0 urlArg tokens itv dirOpt).outcomes,
           o.err = none) := by
  rw [runMulti_valid_ok g cwd fs0 urlArg tokens itv dirOpt repoName s1
    hu hb hn heb]
  obtain ⟨hbr, hwp, -⟩ := provisionBranches_spec g
    (joinPath (joinPath (resolvedDir dirOpt cwd) repoName) ".bare")
    (joinPath (resolvedDir dirOpt cwd) repoName) (parseBranches tokens) s1
  refine ⟨hbr, hwp, ?_⟩
  by_cases hany : (provisionBranches g
      (joinPath (joinPath (resolvedDir dirOpt cwd) repoName) ".bare")
      (joinPath (resolvedDir dirOpt cwd) repoName)
      (parseBranches tokens) s1).2.any (fun o => o.err.isSome) = true
  · simp only [hany, if_true]
    constructor
    · intro h; cases h
    · intro hall
      obtain ⟨o, ho, hsome⟩ := List.any_eq_true.mp hany
      rw [hall o ho] at hsome
      cases hsome
  · have hany2 : (provisionBranches g
        (joinPath (joinPath (resolvedDir dirOpt cwd) repoName) ".bare")
        (joinPath (resolvedDir dirOpt cwd) repoName)
        (parseBranches tokens) s1).2.any (fun o => o.err.isSome) = false := by
      simpa using hany
    simp only [hany2, Bool.false_eq_true, if_false]
    constructor
    · intro _ o ho
      have hf := List.any_eq_false.mp hany2 o ho
      simpa using hf
    · intro _
      trivial

/-- Witness for C7: with an environment in which the dev worktree fails and
test succeeds, both branches are attempted in order and the exit status is
non-zero. -/
theorem c7_per_branch_aggregation_witness :
    (runMulti failDevGit "/cwd" [] (some "https://host/org/repo.git")
        ["dev test"] false "/base").outcomes.map (fun o => o.branch)
      = ["dev", "test"]
    ∧ ((runMulti failDevGit "/cwd" [] (some "https://host/org/repo.git")
        ["dev test"] false "/base").exitCode = 0
       ↔ ∀ o ∈ (runMulti failDevGit "/cwd" [] (some "https://host/org/repo.git")
           ["dev test"] false "/base").outcomes, o.err = none) := by
  have h := c7_per_branch_aggregation failDevGit "/cwd" []
    (some "https://host/org/repo.git") ["dev test"] false "/base" "repo"
    { fs := ["/base/repo/.bare", "/base/repo"],
      trace := [Effect.ensureDir "/base/repo",
                Effect.gitClone "https://host/org/repo.git" "/base/repo/.bare"] }
    (by decide) (by decide) rfl rfl
  exact ⟨h.1, h.2.2⟩

/-- Claim C8: when input validation fails (missing or blank url or branch,
or a url with no extractable repository name), the run aborts with exit
code 1 before any filesystem or git side effect: the effect trace is empty
and the filesystem is untouched. -/
theorem c8_validation_aborts_early (g : GitOracle) (cwd dirOpt : String)
    (fs0 : List String) (uA bA : Option String) :
    (∀ e, resolveInputs uA bA dirOpt cwd = Except.error e →
      runCli g cwd fs0 uA bA dirOpt
        = { exitCode := 1, errMsg := some e,
            state := { fs := fs0, trace := [] } })
    ∧ (∀ url branch dir e,
        resolveInputs uA bA dirOpt cwd = Except.ok (url, branch, dir) →
        resolveRepoName url = Except.error e →
        runCli g cwd fs0 uA bA dirOpt
          = { exitCode := 1, errMsg := some e,
              state := { fs := fs0, trace := [] } }) := by
  constructor
  · intro e he
    unfold runCli
    simp [he]
  · intro url branch dir e hok hname
    unfold runCli
    simp [hok, hname]

/-- Witness for C8: a missing branch argument and an unparsable url each
abort with exit 1 and an untouched filesystem. -/
theorem c8_validation_aborts_early_witness :
    runCli happyGit "/cwd" ["/base"] (some "https://host/org/repo.git") none
        "/base"
      = { exitCode := 1, errMsg := some usageMessage,
          state := { fs := ["/base"], trace := [] } }
    ∧ runCli happyGit "/cwd" ["/base"] (some "nohost") (some "dev") "/base"
      = { exitCode := 1, errMsg := some invalidUrlMessage,
          state := { fs := ["/base"], trace := [] } } := by
  have h := c8_validation_aborts_early happyGit "/cwd" "/base" ["/base"]
    (some "https://host/org/repo.git") none
  have h2 := c8_validation_aborts_early happyGit "/cwd" "/base" ["/base"]
    (some "nohost") (some "dev")
  exact ⟨h.1 usageMessage rfl,
    h2.2 "nohost" "dev" "/base" invalidUrlMessage rfl rfl⟩

/-- Claim C9: pressing Escape, q or Ctrl-C, or activating the Cancel
button, on a not-yet-settled TUI rejects the promise with the clean
cancellation error, and the screen is destroyed before the rejection is
delivered (the destroy action precedes the reject action in the log). -/
theorem c9_tui_cancel_clean (s : TuiState) (e : TuiEvent)
    (hs : s.settled = false)
    (he : e = TuiEvent.keyEscape ∨ e = TuiEvent.keyQ ∨ e = TuiEvent.keyCtrlC
          ∨ e = TuiEvent.pressCancel) :
    (tuiStep e s).outcome = some (PromiseResult.rejected "Cancelled by user.")
    ∧ (tuiStep e s).actions
      = s.actions ++ [TuiAction.destroyScreen,
                       TuiAction.deliverReject "Cancelled by user."]
    ∧ (tuiStep e s).settled = true := by
  rcases he with rfl | rfl | rfl | rfl <;>
    simp [tuiStep, cancel, settle, hs, actionOf]

/-- Witness for C9: cancelling a freshly opened prefilled form. -/
theorem c9_tui_cancel_clean_witness :
    (tuiStep TuiEvent.keyEscape
        (tuiInit (some "https://host/org/repo.git") (some "dev") none
          "/cwd")).outcome
      = some (PromiseResult.rejected "Cancelled by user.")
    ∧ (tuiStep TuiEvent.keyEscape
        (tuiInit (some "https://host/org/repo.git") (some "dev") none
          "/cwd")).actions
      = [TuiAction.focusField 0, TuiAction.destroyScreen,
         TuiAction.deliverReject "Cancelled by user."]
    ∧ (tuiStep TuiEvent.keyEscape
        (tuiInit (some "https://host/org/repo.git") (some "dev") none
          "/cwd")).settled = true := by
  have h := c9_tui_cancel_clean
    (tuiInit (some "https://host/org/repo.git") (some "dev") none "/cwd")
    TuiEvent.keyEscape rfl (Or.inl rfl)
  simpa [tuiInit] using h

theorem settle_of_settled (r : PromiseResult) (s : TuiState)
    (hs : s.settled = true) : settle r s = s := by
  simp [settle, hs]

theorem submit_outcome_of_settled (s : TuiState) (hs : s.settled = true) :
    (submit s).outcome = s.outcome := by
  unfold submit
  split_ifs <;> simp [focusAt, setError, settle_of_settled _ _ hs]

theorem cancel_outcome_rejected (s : TuiState) (hs : s.settled = false) :
    (cancel s).outcome = some (PromiseResult.rejected "Cancelled by user.") := by
  simp [cancel, settle, hs]

theorem submit_resolved (s : TuiState) (u b d : String)
    (hs : s.settled = false) (ho : s.outcome = none)
    (hres : (submit s).outcome = some (PromiseResult.resolvedInputs u b d)) :
    u = jsTrim s.urlVal ∧ b = jsTrim s.branchVal ∧ d = jsTrim s.dirVal
    ∧ u.data.isEmpty = false ∧ b.data.isEmpty = false
    ∧ d.data.isEmpty = false := by
  unfold submit at hres
  split_ifs at hres with h1 h2 h3
  · have hres2 : s.outcome = some (PromiseResult.resolvedInputs u b d) := hres
    rw [ho] at hres2
    cases hres2
  · have hres2 : s.outcome = some (PromiseResult.resolvedInputs u b d) := hres
    rw [ho] at hres2
    cases hres2
  · have hres2 : s.outcome = some (PromiseResult.resolvedInputs u b d) := hres
    rw [ho] at hres2
    cases hres2
  · rw [settle, if_neg (by simp [hs])] at hres
    have hres2 : some (PromiseResult.resolvedInputs (jsTrim s.urlVal)
        (jsTrim s.branchVal) (jsTrim s.dirVal))
        = some (PromiseResult.resolvedInputs u b d) := hres
    simp only [Option.some.injEq, PromiseResult.resolvedInputs.injEq] at hres2
    obtain ⟨rfl, rfl, rfl⟩ := hres2
    refine ⟨rfl, rfl, rfl, by simpa using h1, by simpa using h2,
      by simpa using h3⟩

/-- Claim C10: the promise settles at most once — after a settle, no event
changes the outcome; a successful resolution carries the trimmed field
values, each non-empty; and a submit with a blank field does not settle but
shows that field's error and refocuses the offending field: the url
(field 0), the branch (field 1), or the base directory (field 2). -/
theorem c10_settle_once_validated (s : TuiState) (e : TuiEvent)
    (u b d : String) :
    (s.settled = true → (tuiStep e s).outcome = s.outcome)
    ∧ (s.settled = false → s.outcome = none →
       (tuiStep e s).outcome = some (PromiseResult.resolvedInputs u b d) →
       u = jsTrim s.urlVal ∧ b = jsTrim s.branchVal ∧ d = jsTrim s.dirVal
       ∧ u.data.isEmpty = false ∧ b.data.isEmpty = false
       ∧ d.data.isEmpty = false)
    ∧ (s.settled = false → (jsTrim s.urlVal).data.isEmpty = true →
       (tuiStep TuiEvent.formSubmit s).settled = false
       ∧ (tuiStep TuiEvent.formSubmit s).outcome = s.outcome
       ∧ (tuiStep TuiEvent.formSubmit s).errText
         = some "Repository URL is required."
       ∧ (tuiStep TuiEvent.formSubmit s).focusIndex = 0)
    ∧ (s.settled = false → (jsTrim s.urlVal).data.isEmpty = false →
       (jsTrim s.branchVal).data.isEmpty = true →
       (tuiStep TuiEvent.formSubmit s).settled = false
       ∧ (tuiStep TuiEvent.formSubmit s).outcome = s.outcome
       ∧ (tuiStep TuiEvent.formSubmit s).errText
         = some "Branch is required."
       ∧ (tuiStep TuiEvent.formSubmit s).focusIndex = 1)
    ∧ (s.settled = false → (jsTrim s.urlVal).data.isEmpty = false →
       (jsTrim s.branchVal).data.isEmpty = false →
       (jsTrim s.dirVal).data.isEmpty = true →
       (tuiStep TuiEvent.formSubmit s).settled = false
       ∧ (tuiStep TuiEvent.formSubmit s).outcome = s.outcome
       ∧ (tuiStep TuiEvent.formSubmit s).errText
         = some "Base directory is required."
       ∧ (tuiStep TuiEvent.formSubmit s).focusIndex = 2) := by
  refine ⟨fun hs => ?_, fun hs ho hres => ?_, fun hs hu => ?_,
    fun hs hu hb => ?_, fun hs hu hb hd => ?_⟩
  · cases e <;>
      simp [tuiStep, cancel, settle_of_settled _ _ hs,
        submit_outcome_of_settled _ hs, focusAt, setError]
  · cases e <;> simp only [tuiStep] at hres
    case keyEscape =>
      rw [cancel_outcome_rejected s hs] at hres
      simp at hres
    case keyQ =>
      rw [cancel_outcome_rejected s hs] at hres
      simp at hres
    case keyCtrlC =>
      rw [cancel_outcome_rejected s hs] at hres
      simp at hres
    case pressCancel =>
      rw [cancel_outcome_rejected s hs] at hres
      simp at hres
    case keyCtrlS => exact submit_resolved s u b d hs ho hres
    case pressSubmit => exact submit_resolved s u b d hs ho hres
    case formSubmit => exact submit_resolved s u b d hs ho hres
    case dirEnter => exact submit_resolved s u b d hs ho hres
    case keyTab =>
      have hres2 : s.outcome = some (PromiseResult.resolvedInputs u b d) := hres
      rw [ho] at hres2
      cases hres2
    case keyShiftTab =>
      have hres2 : s.outcome = some (PromiseResult.resolvedInputs u b d) := hres
      rw [ho] at hres2
      cases hres2
    case urlEnter =>
      have hres2 : s.outcome = some (PromiseResult.resolvedInputs u b d) := hres
      rw [ho] at hres2
      cases hres2
    case branchEnter =>
      have hres2 : s.outcome = some (PromiseResult.resolvedInputs u b d) := hres
      rw [ho] at hres2
      cases hres2
    case setUrl v =>
      have hres2 : s.outcome = some (PromiseResult.resolvedInputs u b d) := hres
      rw [ho] at hres2
      cases hres2
    case setBranch v =>
      have hres2 : s.outcome = some (PromiseResult.resolvedInputs u b d) := hres
      rw [ho] at hres2
      cases hres2
    case setDir v =>
      have hres2 : s.outcome = some (PromiseResult.resolvedInputs u b d) := hres
      rw [ho] at hres2
      cases hres2
  · have hstep : tuiStep TuiEvent.formSubmit s = submit s := rfl
    rw [hstep]
    unfold submit
    rw [if_pos hu]
    exact ⟨hs, rfl, rfl, by simp [focusAt, setError]⟩
  · have hstep : tuiStep TuiEvent.formSubmit s = submit s := rfl
    rw [hstep]
    unfold submit
    rw [if_neg (by simp [hu]), if_pos hb]
    refine ⟨hs, rfl, rfl, ?_⟩
    show ((1 + 5 : Int) % 5).toNat = 1
    decide
  · have hstep : tuiStep TuiEvent.formSubmit s = submit s := rfl
    rw [hstep]
    unfold submit
    rw [if_neg (by simp [hu]), if_neg (by simp [hb]), if_pos hd]
    refine ⟨hs, rfl, rfl, ?_⟩
    show ((2 + 5 : Int) % 5).toNat = 2
    decide

/-- Witness for C10: a settled form ignores a further event; a filled form
resolves with its trimmed non-empty values; a submit with a blank url,
blank branch, or blank base directory shows that field's error and
refocuses field 0, 1 or 2 respectively, without settling. -/
theorem c10_settle_once_validated_witness :
    (tuiStep TuiEvent.keyTab tuiSettledState).outcome
      = some (PromiseResult.rejected "Cancelled by user.")
    ∧ ("https://host/org/repo.git" = jsTrim tuiFilledState.urlVal
       ∧ "dev" = jsTrim tuiFilledState.branchVal
       ∧ "/d" = jsTrim tuiFilledState.dirVal
       ∧ ("https://host/org/repo.git" : String).data.isEmpty = false
       ∧ ("dev" : String).data.isEmpty = false
       ∧ ("/d" : String).data.isEmpty = false)
    ∧ ((tuiStep TuiEvent.formSubmit (tuiInit none none none "/cwd")).settled
        = false
       ∧ (tuiStep TuiEvent.formSubmit (tuiInit none none none "/cwd")).outcome
        = (tuiInit none none none "/cwd").outcome
       ∧ (tuiStep TuiEvent.formSubmit (tuiInit none none none "/cwd")).errText
        = some "Repository URL is required."
       ∧ (tuiStep TuiEvent.formSubmit
          (tuiInit none none none "/cwd")).focusIndex = 0)
    ∧ ((tuiStep TuiEvent.formSubmit tuiNoBranchState).settled = false
       ∧ (tuiStep TuiEvent.formSubmit tuiNoBranchState).outcome
        = tuiNoBranchState.outcome
       ∧ (tuiStep TuiEvent.formSubmit tuiNoBranchState).errText
        = some "Branch is required."
       ∧ (tuiStep TuiEvent.formSubmit tuiNoBranchState).focusIndex = 1)
    ∧ ((tuiStep TuiEvent.formSubmit tuiNoDirState).settled = false
       ∧ (tuiStep TuiEvent.formSubmit tuiNoDirState).outcome
        = tuiNoDirState.outcome
       ∧ (tuiStep TuiEvent.formSubmit tuiNoDirState).errText
        = some "Base directory is required."
       ∧ (tuiStep TuiEvent.formSubmit tuiNoDirState).focusIndex = 2) := by
  refine ⟨?_, ?_, ?_, ?_, ?_⟩
  · rw [(c10_settle_once_validated tuiSettledState TuiEvent.keyTab "x" "y"
      "z").1 rfl]
    rfl
  · exact (c10_settle_once_validated tuiFilledState TuiEvent.formSubmit
      "https://host/org/repo.git" "dev" "/d").2.1 rfl rfl (by decide)
  · exact (c10_settle_once_validated (tuiInit none none none "/cwd")
      TuiEvent.formSubmit "x" "y" "z").2.2.1 rfl (by decide)
  · exact (c10_settle_once_validated tuiNoBranchState
      TuiEvent.formSubmit "x" "y" "z").2.2.2.1 rfl (by decide) (by decide)
  · exact (c10_settle_once_validated tuiNoDirState
      TuiEvent.formSubmit "x" "y" "z").2.2.2.2 rfl (by decide) (by decide)
      (by decide)
